import Mathlib

/-!
Shallow embedding of the page-generation glue in `gatsby-node.js` of the
prisma2-docs repository: slug derivation in `onCreateNode`, the variant
fan-out and SEO metadata selection in `createPages`, and the webpack
configuration in `onCreateWebpackConfig`.  JavaScript strings are modelled
as Lean strings; JavaScript null/undefined values as `Option`; JavaScript
truthiness of strings (empty string is falsy) is modelled explicitly.
-/

namespace GatsbyNode

/-- An entry of the frontmatter lists `techMetaTitles` / `techMetaDescriptions`:
an object with fields `name` and `value`. -/
structure TechMeta where
  name : String
  value : String
deriving DecidableEq, Repr

/-- The frontmatter fields queried by `createPages`.  Fields that GraphQL may
return as `null` are `Option`s. -/
structure Frontmatter where
  title : String
  metaTitle : Option String
  metaDescription : Option String
  langSwitcher : Option (List String)
  dbSwitcher : Option (List String)
  techMetaTitles : Option (List TechMeta)
  techMetaDescriptions : Option (List TechMeta)
deriving DecidableEq, Repr

/-- JavaScript truthiness of an optional string: `null`/`undefined` and the
empty string are falsy, every other string is truthy. -/
def truthy : Option String → Bool
  | none => false
  | some s => s != ""

/-- The JavaScript expression `a || b` for an optional string `a` and a
string `b`: returns `b` when `a` is null or empty. -/
def jsOr : Option String → String → String
  | none, b => b
  | some s, b => if s == "" then b else s

/-- The template string
`${lang ? `${lang}${db ? '-' : ''}` : ''}${db ? `${db}` : ''}`
computed inside `getTitle` and `getDesc`. -/
def queryParam (lang db : Option String) : String :=
  (if truthy lang then lang.getD "" ++ (if truthy db then "-" else "") else "")
    ++ (if truthy db then db.getD "" else "")

/-- `getTitle(frontmatter, lang, db)` from `createPages`: default is
`frontmatter.metaTitle || frontmatter.title`; when `lang` or `db` is truthy,
a first-match linear search over `techMetaTitles` for an entry whose `name`
equals the composed query parameter overrides the default. -/
def getTitle (fm : Frontmatter) (lang db : Option String) : String :=
  let pageSeoTitle := jsOr fm.metaTitle fm.title
  if truthy lang || truthy db then
    let qp := queryParam lang db
    let titleEntry : Option TechMeta :=
      match fm.techMetaTitles with
      | some items => items.find? (fun item => item.name == qp)
      | none => none
    match titleEntry with
    | some e => e.value
    | none => pageSeoTitle
  else
    pageSeoTitle

/-- `getDesc(frontmatter, lang, db)` from `createPages`: default is
`frontmatter.metaDescription || frontmatter.title`; when `lang` or `db` is
truthy, a first-match linear search over `techMetaDescriptions` for an entry
whose `name` equals the composed query parameter overrides the default. -/
def getDesc (fm : Frontmatter) (lang db : Option String) : String :=
  let pageSeoDesc := jsOr fm.metaDescription fm.title
  if truthy lang || truthy db then
    let qp := queryParam lang db
    let descEntry : Option TechMeta :=
      match fm.techMetaDescriptions with
      | some items => items.find? (fun item => item.name == qp)
      | none => none
    match descEntry with
    | some e => e.value
    | none => pageSeoDesc
  else
    pageSeoDesc

/-- JavaScript `s.replace(pat, '')` for a plain (non-regex) pattern string:
removes the first occurrence of `pat`, if any; with an empty pattern the
string is returned with nothing removed. -/
def removeFirst (pat : List Char) : List Char → List Char
  | [] => []
  | c :: cs =>
    if pat != [] && pat.isPrefixOf (c :: cs) then
      (c :: cs).drop pat.length
    else
      c :: removeFirst pat cs

/-- String-level wrapper of `removeFirst`:
`relativePath.replace(ext, '')` in `onCreateNode`. -/
def replaceFirstStr (s pat : String) : String :=
  ⟨removeFirst pat.data s.data⟩

/-- The slug value computed by `onCreateNode`: the parent file relative path
with the extension removed, with the root `index` file mapped to the empty
string. -/
def slugValue (relativePath ext : String) : String :=
  let value := replaceFirstStr relativePath ext
  if value == "index" then "" else value

/-- A field attached by `createNodeField`. -/
structure NodeField where
  name : String
  value : String
deriving DecidableEq, Repr

/-- The `onCreateNode` hook, modelled as the list of `createNodeField` calls
it performs (in order) for a node with the given internal type, parent
relative path, parent extension and node id. -/
def onCreateNode (internalType relativePath ext nodeId : String) : List NodeField :=
  if internalType == "Mdx" then
    [{ name := "slug", value := "/" ++ slugValue relativePath ext },
     { name := "id", value := nodeId }]
  else
    []

/-- One step of the global regex replacement `s.replace` with the global regex `\d+-` and empty replacement:
scanning left to right, a maximal run of digits immediately followed by a
hyphen is deleted (the regex `\d+` is greedy, and backtracking to a shorter
digit run always fails because the next character is again a digit), and
scanning resumes after the deleted match; a digit whose run is not followed
by a hyphen is kept. -/
def stripDigitDashL : List Char → List Char
  | [] => []
  | c :: cs =>
    if c.isDigit then
      if (List.dropWhile Char.isDigit cs).head? = some '-' then
        stripDigitDashL (List.dropWhile Char.isDigit cs).tail
      else
        c :: stripDigitDashL cs
    else
      c :: stripDigitDashL cs
termination_by l => l.length
decreasing_by
  · have h1 : (List.dropWhile Char.isDigit cs).length ≤ cs.length :=
      (List.dropWhile_suffix Char.isDigit).length_le
    have h2 : (List.dropWhile Char.isDigit cs).tail.length ≤
        (List.dropWhile Char.isDigit cs).length := by
      simp [List.length_tail]
    simp only [List.length_cons]
    omega
  · simp only [List.length_cons]; omega
  · simp only [List.length_cons]; omega

/-- String-level wrapper of `stripDigitDashL`: `s.replace` with the global regex `\d+-` and empty replacement. -/
def stripDigitDash (s : String) : String :=
  ⟨stripDigitDashL s.data⟩

/-- A `createPage` call, recorded as its path, component and context. -/
structure PageDesc where
  path : String
  component : String
  contextId : String
  seoTitle : String
  seoDescription : String
deriving DecidableEq, Repr

/-- One node of the `allMdx` query result, with the fields `createPages`
reads: `fields.slug`, `fields.id` and the frontmatter. -/
structure MdxNode where
  slug : String
  id : String
  frontmatter : Frontmatter
deriving DecidableEq, Repr

/-- The component argument passed to every `createPage` call. -/
def articleLayout : String := "./src/layouts/articleLayout.tsx"

/-- The unconditional `createPage` call made at the end of the per-node loop
in `createPages`: path the stripped slug when the slug is truthy, else the root path,
and `getTitle` / `getDesc` invoked with no `lang` / `db` arguments. -/
def basePage (node : MdxNode) : PageDesc :=
  { path := if node.slug = "" then "/" else stripDigitDash node.slug
    component := articleLayout
    contextId := node.id
    seoTitle := getTitle node.frontmatter none none
    seoDescription := getDesc node.frontmatter none none }

/-- The list of `createPage` calls (in order) performed for one node by the
per-node body of `createPages`: the nested `langSwitcher` × `dbSwitcher`
fan-out, then the `dbSwitcher && !langSwitcher` fan-out, then the base page. -/
def pagesForNode (node : MdxNode) : List PageDesc :=
  (match node.frontmatter.langSwitcher with
   | some langs =>
     match node.frontmatter.dbSwitcher with
     | some dbs =>
       langs.flatMap (fun lang => dbs.map (fun db =>
         { path := stripDigitDash node.slug ++ "-" ++ lang ++ "-" ++ db
           component := articleLayout
           contextId := node.id
           seoTitle := getTitle node.frontmatter (some lang) (some db)
           seoDescription := getDesc node.frontmatter (some lang) (some db) }))
     | none =>
       langs.map (fun lang =>
         { path := stripDigitDash node.slug ++ "-" ++ lang
           component := articleLayout
           contextId := node.id
           seoTitle := getTitle node.frontmatter (some lang) none
           seoDescription := getDesc node.frontmatter (some lang) none })
   | none => [])
  ++ (match node.frontmatter.dbSwitcher, node.frontmatter.langSwitcher with
      | some dbs, none =>
        dbs.map (fun db =>
          { path := stripDigitDash node.slug ++ "-" ++ db
            component := articleLayout
            contextId := node.id
            seoTitle := getTitle node.frontmatter none (some db)
            seoDescription := getDesc node.frontmatter none (some db) })
      | _, _ => [])
  ++ [basePage node]

/-- Settlement state of the promise returned by `createPages`. -/
inductive PromiseOutcome where
  | resolved
  | rejected
  | pending
deriving DecidableEq, Repr

/-- `createPages` returns `new Promise((resolve, reject) => graphql(q).then(cb))`.
The executor registers only a fulfilment callback on the query promise and
calls `resolve()` at the end of that callback; `reject` is never invoked.
Hence on query success the pages of every result node are created and the
returned promise resolves, while on query failure the callback never runs,
no page is created, and the returned promise never settles (the query
failure becomes an unhandled rejection of the inner `.then` chain). -/
def createPagesRun (queryResult : Except String (List MdxNode)) :
    List PageDesc × PromiseOutcome :=
  match queryResult with
  | Except.ok nodes => (nodes.flatMap pagesForNode, PromiseOutcome.resolved)
  | Except.error _ => ([], PromiseOutcome.pending)

/-- One alias entry of the webpack `resolve.alias` map. -/
structure WebpackAlias where
  name : String
  target : String
deriving DecidableEq, Repr

/-- The `resolve` section passed to `actions.setWebpackConfig`. -/
structure WebpackResolve where
  modules : List String
  aliases : List WebpackAlias
deriving DecidableEq, Repr

/-- `path.resolve(__dirname, rel)` for a relative segment `rel` under the
directory `dirname`. -/
def pathResolve (dirname rel : String) : String :=
  dirname ++ "/" ++ rel

/-- The `onCreateWebpackConfig` hook: the webpack `resolve` configuration it
registers, as a function of `__dirname`. -/
def onCreateWebpackConfig (dirname : String) : WebpackResolve :=
  { modules := [pathResolve dirname "src", "node_modules"]
    aliases := [{ name := "$components", target := pathResolve dirname "src/components" },
              { name := "buble", target := "@philpl/buble" }] }

/-- The composed lookup key as the specification words it (spec-side
definition, for comparison with `queryParam` from the source): `lang-db`
when both identifiers are present, the single present identifier otherwise. -/
def specKey (lang db : Option String) : String :=
  if truthy lang && truthy db then lang.getD "" ++ "-" ++ db.getD ""
  else if truthy lang then lang.getD ""
  else db.getD ""

/-- Exact-match first-hit lookup in an optional override list with a
fallback default, as the specification words it (spec-side definition, for
comparison with `getTitle` and `getDesc` from the source). -/
def specResolve (overrides : Option (List TechMeta)) (key deflt : String) : String :=
  match overrides with
  | some items =>
    match items.find? (fun e => e.name == key) with
    | some e => e.value
    | none => deflt
  | none => deflt

/-- `l` contains no digit immediately followed by a hyphen, i.e. no match of
the regex `\d+-` remains in `l`. -/
def noDigitDash : List Char → Bool
  | c :: d :: rest => !(c.isDigit && d == '-') && noDigitDash (d :: rest)
  | _ => true

/-- Sample frontmatter declaring both variant arrays. -/
def fmBoth : Frontmatter :=
  { title := "Title", metaTitle := some "Meta", metaDescription := none,
    langSwitcher := some ["typescript", "node"], dbSwitcher := some ["postgres"],
    techMetaTitles := none, techMetaDescriptions := none }

/-- Sample node declaring both variant arrays. -/
def nodeBoth : MdxNode :=
  { slug := "/01-getting-started/02-setup", id := "n-both", frontmatter := fmBoth }

/-- Sample frontmatter with variant arrays and override tables. -/
def fmVariant : Frontmatter :=
  { title := "Title", metaTitle := some "Meta", metaDescription := none,
    langSwitcher := some ["typescript"], dbSwitcher := some ["postgres"],
    techMetaTitles := some [{ name := "typescript-postgres", value := "TP title" }],
    techMetaDescriptions := some [{ name := "typescript", value := "TS desc" }] }

/-- Sample frontmatter declaring only `langSwitcher`. -/
def fmLangOnly : Frontmatter :=
  { title := "Title", metaTitle := none, metaDescription := none,
    langSwitcher := some ["typescript", "node", "go"], dbSwitcher := none,
    techMetaTitles := none, techMetaDescriptions := none }

/-- Sample node declaring only `langSwitcher`. -/
def langOnlyNode : MdxNode :=
  { slug := "/01-getting-started/02-setup", id := "n-lang", frontmatter := fmLangOnly }

/-- Sample frontmatter declaring only `dbSwitcher`. -/
def fmDbOnly : Frontmatter :=
  { title := "Title", metaTitle := none, metaDescription := none,
    langSwitcher := none, dbSwitcher := some ["postgres", "mysql"],
    techMetaTitles := none, techMetaDescriptions := none }

/-- Sample node declaring only `dbSwitcher`. -/
def dbOnlyNode : MdxNode :=
  { slug := "/01-getting-started/02-setup", id := "n-db", frontmatter := fmDbOnly }

/-- Sample frontmatter with no variant arrays, no meta description, and
populated override tables. -/
def fmPlain : Frontmatter :=
  { title := "About", metaTitle := none, metaDescription := none,
    langSwitcher := none, dbSwitcher := none,
    techMetaTitles := some [{ name := "typescript", value := "X" }],
    techMetaDescriptions := some [{ name := "typescript", value := "Y" }] }

/-- Sample node with no variant arrays, no meta description, and populated
override tables. -/
def nodePlain : MdxNode :=
  { slug := "/01-about", id := "n-plain", frontmatter := fmPlain }

lemma queryParam_eq_specKey (lang db : Option String) :
    queryParam lang db = specKey lang db := by
  rcases lang with _ | l <;> rcases db with _ | d
  · rfl
  · by_cases hd : d = "" <;> simp [queryParam, specKey, truthy, hd]
  · by_cases hl : l = "" <;> simp [queryParam, specKey, truthy, hl]
  · by_cases hl : l = "" <;> by_cases hd : d = "" <;>
      simp [queryParam, specKey, truthy, hl, hd]

lemma getTitle_eq_specResolve (fm : Frontmatter) (lang db : Option String)
    (h : (truthy lang || truthy db) = true) :
    getTitle fm lang db =
      specResolve fm.techMetaTitles (specKey lang db) (jsOr fm.metaTitle fm.title) := by
  rw [← queryParam_eq_specKey]
  simp only [getTitle, specResolve, h, if_true]
  cases fm.techMetaTitles with
  | none => rfl
  | some items => rfl

lemma getDesc_eq_specResolve (fm : Frontmatter) (lang db : Option String)
    (h : (truthy lang || truthy db) = true) :
    getDesc fm lang db =
      specResolve fm.techMetaDescriptions (specKey lang db) (jsOr fm.metaDescription fm.title) := by
  rw [← queryParam_eq_specKey]
  simp only [getDesc, specResolve, h, if_true]
  cases fm.techMetaDescriptions with
  | none => rfl
  | some items => rfl

lemma length_flatMap_const {α β : Type} (l : List α) (f : α → List β) (m : Nat)
    (h : ∀ a, (f a).length = m) : (l.flatMap f).length = l.length * m := by
  induction l with
  | nil => simp
  | cons a t ih =>
    simp only [List.flatMap_cons, List.length_append, ih, h, List.length_cons]
    ring

lemma slash_append_ne_empty (v : String) : "/" ++ v ≠ "" := by
  intro h
  have hd := congrArg String.data h
  simp [String.data_append] at hd

lemma stripDigitDashL_slash (l : List Char) :
    stripDigitDashL ('/' :: l) = '/' :: stripDigitDashL l := by
  have hnd : Char.isDigit '/' = false := by decide
  simp [stripDigitDashL, hnd]

lemma stripDigitDash_slash (v : String) :
    stripDigitDash ("/" ++ v) = "/" ++ stripDigitDash v := by
  have hdata : ("/" ++ v).data = '/' :: v.data := by
    simp [String.data_append]
  show (⟨stripDigitDashL ("/" ++ v).data⟩ : String) = _
  rw [hdata, stripDigitDashL_slash]
  rfl

lemma stripDigitDashL_head? (l : List Char)
    (h : (List.dropWhile Char.isDigit l).head? ≠ some '-') :
    (stripDigitDashL l).head? = l.head? := by
  cases l with
  | nil => simp [stripDigitDashL]
  | cons c cs =>
    by_cases hc : c.isDigit
    · have hd : (List.dropWhile Char.isDigit cs).head? ≠ some '-' := by
        rwa [List.dropWhile_cons_of_pos hc] at h
      simp [stripDigitDashL, hc, hd]
    · simp [stripDigitDashL, hc]

lemma noDigitDash_stripAux : ∀ (n : Nat) (l : List Char), l.length ≤ n →
    noDigitDash (stripDigitDashL l) = true := by
  intro n
  induction n with
  | zero =>
    intro l hl
    have hnil : l = [] := List.length_eq_zero.mp (Nat.le_zero.mp hl)
    subst hnil
    simp [stripDigitDashL, noDigitDash]
  | succ n ih =>
    intro l hl
    cases l with
    | nil => simp [stripDigitDashL, noDigitDash]
    | cons c cs =>
      by_cases hc : c.isDigit
      · by_cases hdash : (List.dropWhile Char.isDigit cs).head? = some '-'
        · have hstep : stripDigitDashL (c :: cs) =
              stripDigitDashL (List.dropWhile Char.isDigit cs).tail := by
            simp [stripDigitDashL, hc, hdash]
          have hlen : (List.dropWhile Char.isDigit cs).tail.length ≤ n := by
            have h1 := (List.dropWhile_suffix Char.isDigit (l := cs)).length_le
            have h2 : (List.dropWhile Char.isDigit cs).tail.length ≤
                (List.dropWhile Char.isDigit cs).length := by
              simp [List.length_tail]
            simp only [List.length_cons] at hl
            omega
          rw [hstep]
          exact ih _ hlen
        · have hstep : stripDigitDashL (c :: cs) = c :: stripDigitDashL cs := by
            simp [stripDigitDashL, hc, hdash]
          have hcs : noDigitDash (stripDigitDashL cs) = true := by
            apply ih
            simp only [List.length_cons] at hl
            omega
          have hhead := stripDigitDashL_head? cs hdash
          rw [hstep]
          cases hsc : stripDigitDashL cs with
          | nil => simp [noDigitDash]
          | cons d rest =>
            have hd2 : cs.head? = some d := by rw [← hhead, hsc]; rfl
            have hdne : d ≠ '-' := by
              cases cs with
              | nil => simp at hd2
              | cons y t =>
                have hy : y = d := by simpa using hd2
                subst hy
                by_cases hyd : y.isDigit
                · intro hcontra
                  rw [hcontra] at hyd
                  exact absurd hyd (by decide)
                · have heq : List.dropWhile Char.isDigit (y :: t) = y :: t :=
                    List.dropWhile_cons_of_neg hyd
                  rw [heq] at hdash
                  simp at hdash
                  exact hdash
            have hcf : (c.isDigit && d == '-') = false := by
              simp [hdne]
            rw [hsc] at hcs
            simp [noDigitDash, hcf, hcs]
      · have hstep : stripDigitDashL (c :: cs) = c :: stripDigitDashL cs := by
          simp [stripDigitDashL, hc]
        have hcs : noDigitDash (stripDigitDashL cs) = true := by
          apply ih
          simp only [List.length_cons] at hl
          omega
        rw [hstep]
        cases hsc : stripDigitDashL cs with
        | nil => simp [noDigitDash]
        | cons d rest =>
          have hcf : (c.isDigit && d == '-') = false := by
            simp [hc]
          rw [hsc] at hcs
          simp [noDigitDash, hcf, hcs]

/-- C1: for a node whose frontmatter declares a `langSwitcher` of length N
and a `dbSwitcher` of length M, `createPages` creates exactly N times M
additional pages beyond the base page, one per ordered pair of a language
and a database identifier, each with path equal to the digit-dash-stripped
slug followed by a hyphen, the language and a hyphen and the database. -/
theorem C1_cartesian_fanout (node : MdxNode) (langs dbs : List String)
    (hl : node.frontmatter.langSwitcher = some langs)
    (hd : node.frontmatter.dbSwitcher = some dbs) :
    pagesForNode node =
      (langs.flatMap (fun lang => dbs.map (fun db =>
        { path := stripDigitDash node.slug ++ "-" ++ lang ++ "-" ++ db
          component := articleLayout
          contextId := node.id
          seoTitle := getTitle node.frontmatter (some lang) (some db)
          seoDescription := getDesc node.frontmatter (some lang) (some db) })))
        ++ [basePage node] ∧
    (pagesForNode node).length = langs.length * dbs.length + 1 := by
  have hmain : pagesForNode node =
      (langs.flatMap (fun lang => dbs.map (fun db =>
        { path := stripDigitDash node.slug ++ "-" ++ lang ++ "-" ++ db
          component := articleLayout
          contextId := node.id
          seoTitle := getTitle node.frontmatter (some lang) (some db)
          seoDescription := getDesc node.frontmatter (some lang) (some db) })))
        ++ [basePage node] := by
    simp [pagesForNode, hl, hd]
  refine ⟨hmain, ?_⟩
  rw [hmain]
  rw [List.length_append]
  rw [length_flatMap_const _ _ dbs.length (fun a => by simp)]
  rfl

/-- C1 witness: the fan-out at a concrete node with two languages and one
database yields two times one pages plus the base page. -/
theorem C1_cartesian_fanout_witness : (pagesForNode nodeBoth).length = 2 * 1 + 1 :=
  (C1_cartesian_fanout nodeBoth ["typescript", "node"] ["postgres"] rfl rfl).2

/-- C2: for every variant page (a truthy language or database identifier
present), the SEO title and description are resolved by a first-match linear
search over the optional override lists `techMetaTitles` and
`techMetaDescriptions` keyed by the composed identifier (`lang-db` when both
are present, the single identifier otherwise), falling back to the page
defaults `metaTitle || title` and `metaDescription || title`. -/
theorem C2_variant_seo_resolution (fm : Frontmatter) (lang db : Option String)
    (h : (truthy lang || truthy db) = true) :
    getTitle fm lang db =
      specResolve fm.techMetaTitles (specKey lang db) (jsOr fm.metaTitle fm.title) ∧
    getDesc fm lang db =
      specResolve fm.techMetaDescriptions (specKey lang db) (jsOr fm.metaDescription fm.title) :=
  ⟨getTitle_eq_specResolve fm lang db h, getDesc_eq_specResolve fm lang db h⟩

/-- C2 witness: the variant SEO resolution at a concrete frontmatter with
both identifiers present and populated override tables. -/
theorem C2_variant_seo_resolution_witness :
    getTitle fmVariant (some "typescript") (some "postgres") =
      specResolve fmVariant.techMetaTitles (specKey (some "typescript") (some "postgres"))
        (jsOr fmVariant.metaTitle fmVariant.title) ∧
    getDesc fmVariant (some "typescript") (some "postgres") =
      specResolve fmVariant.techMetaDescriptions (specKey (some "typescript") (some "postgres"))
        (jsOr fmVariant.metaDescription fmVariant.title) :=
  C2_variant_seo_resolution fmVariant (some "typescript") (some "postgres") (by decide)

/-- C3: for every Mdx node, the slug field is the parent relative path with
the extension stripped, prefixed with a slash; the base page path further
strips every digit-dash occurrence; and when the extension-stripped path is
`index` the slug defaults to the empty value, so the slug field is the root
slash and the base page path is the root path. -/
theorem C3_slug_derivation (relativePath ext nodeId : String) (fm : Frontmatter) :
    onCreateNode "Mdx" relativePath ext nodeId =
      [{ name := "slug", value := "/" ++ slugValue relativePath ext },
       { name := "id", value := nodeId }] ∧
    (basePage { slug := "/" ++ slugValue relativePath ext, id := nodeId,
                frontmatter := fm }).path
      = "/" ++ stripDigitDash (slugValue relativePath ext) ∧
    (replaceFirstStr relativePath ext = "index" →
      "/" ++ slugValue relativePath ext = "/" ∧
      (basePage { slug := "/" ++ slugValue relativePath ext, id := nodeId,
                  frontmatter := fm }).path = "/") := by
  refine ⟨rfl, ?_, ?_⟩
  · simp [basePage, slash_append_ne_empty, stripDigitDash_slash]
  · intro hidx
    have hv : slugValue relativePath ext = "" := by
      simp [slugValue, hidx]
    rw [hv]
    constructor
    · rfl
    · simp +decide [basePage, slash_append_ne_empty, stripDigitDash, stripDigitDashL]

/-- C3 witness: the root index file of the content tree gets the root slug
and the root base page path. -/
theorem C3_slug_derivation_witness :
    "/" ++ slugValue "index.mdx" ".mdx" = "/" ∧
    (basePage { slug := "/" ++ slugValue "index.mdx" ".mdx", id := "n-root",
                frontmatter := fmBoth }).path = "/" :=
  (C3_slug_derivation "index.mdx" ".mdx" "n-root" fmBoth).2.2 rfl

/-- C4 counterexample: at a failing query the promise returned by
`createPages` is left pending, not rejected, because the executor never
invokes `reject`; so the failure does not surface as a rejection of the
returned promise. -/
theorem C4_no_rejection_counterexample :
    (createPagesRun (Except.error "query failed")).2 ≠ PromiseOutcome.rejected ∧
    (createPagesRun (Except.error "query failed")).2 = PromiseOutcome.pending := by
  constructor
  · decide
  · rfl

/-- C4 (amended): if the content query fails, no page is created and the
promise returned by `createPages` never settles (neither resolves nor
rejects), with no retry. -/
theorem C4_failure_no_page_promise_pending (e : String) :
    createPagesRun (Except.error e) = ([], PromiseOutcome.pending) := rfl

/-- C5: for every Mdx node, `onCreateNode` attaches exactly two fields: a
`slug` field holding the derived slug prefixed with a slash and an `id` field
holding the node id. -/
theorem C5_mdx_two_fields (relativePath ext nodeId : String) :
    onCreateNode "Mdx" relativePath ext nodeId =
      [{ name := "slug", value := "/" ++ slugValue relativePath ext },
       { name := "id", value := nodeId }] ∧
    (onCreateNode "Mdx" relativePath ext nodeId).length = 2 :=
  ⟨rfl, rfl⟩

/-- C6: for a node declaring exactly one of the two variant arrays, exactly
one additional page is created per declared identifier, each with path equal
to the digit-dash-stripped slug followed by a hyphen and that identifier. -/
theorem C6_single_switcher_fanout (node : MdxNode) :
    (∀ langs, node.frontmatter.langSwitcher = some langs →
      node.frontmatter.dbSwitcher = none →
      pagesForNode node =
        (langs.map (fun lang =>
          { path := stripDigitDash node.slug ++ "-" ++ lang
            component := articleLayout
            contextId := node.id
            seoTitle := getTitle node.frontmatter (some lang) none
            seoDescription := getDesc node.frontmatter (some lang) none }))
          ++ [basePage node] ∧
      (pagesForNode node).length = langs.length + 1) ∧
    (∀ dbs, node.frontmatter.dbSwitcher = some dbs →
      node.frontmatter.langSwitcher = none →
      pagesForNode node =
        (dbs.map (fun db =>
          { path := stripDigitDash node.slug ++ "-" ++ db
            component := articleLayout
            contextId := node.id
            seoTitle := getTitle node.frontmatter none (some db)
            seoDescription := getDesc node.frontmatter none (some db) }))
          ++ [basePage node] ∧
      (pagesForNode node).length = dbs.length + 1) := by
  constructor
  · intro langs hl hd
    have hmain : pagesForNode node =
        (langs.map (fun lang =>
          { path := stripDigitDash node.slug ++ "-" ++ lang
            component := articleLayout
            contextId := node.id
            seoTitle := getTitle node.frontmatter (some lang) none
            seoDescription := getDesc node.frontmatter (some lang) none }))
          ++ [basePage node] := by
      simp [pagesForNode, hl, hd]
    refine ⟨hmain, ?_⟩
    rw [hmain]
    simp
  · intro dbs hd hl
    have hmain : pagesForNode node =
        (dbs.map (fun db =>
          { path := stripDigitDash node.slug ++ "-" ++ db
            component := articleLayout
            contextId := node.id
            seoTitle := getTitle node.frontmatter none (some db)
            seoDescription := getDesc node.frontmatter none (some db) }))
          ++ [basePage node] := by
      simp [pagesForNode, hl, hd]
    refine ⟨hmain, ?_⟩
    rw [hmain]
    simp

/-- C6 witness: three language-only variants give four pages; two
database-only variants give three pages. -/
theorem C6_single_switcher_fanout_witness :
    (pagesForNode langOnlyNode).length = 3 + 1 ∧
    (pagesForNode dbOnlyNode).length = 2 + 1 :=
  ⟨((C6_single_switcher_fanout langOnlyNode).1 ["typescript", "node", "go"] rfl rfl).2,
   ((C6_single_switcher_fanout dbOnlyNode).2 ["postgres", "mysql"] rfl rfl).2⟩

/-- C7: the webpack configuration registers exactly the component alias and
the buble substitution, and adds the src directory to the module resolution
paths. -/
theorem C7_webpack_config (dirname : String) :
    onCreateWebpackConfig dirname =
      { modules := [dirname ++ "/" ++ "src", "node_modules"]
        aliases := [{ name := "$components", target := dirname ++ "/" ++ "src/components" },
                    { name := "buble", target := "@philpl/buble" }] } ∧
    (onCreateWebpackConfig dirname).aliases.length = 2 ∧
    pathResolve dirname "src" ∈ (onCreateWebpackConfig dirname).modules := by
  refine ⟨rfl, rfl, ?_⟩
  simp [onCreateWebpackConfig]

/-- C8: `onCreateNode` performs no `createNodeField` call for a node whose
internal type differs from Mdx. -/
theorem C8_non_mdx_no_fields (internalType relativePath ext nodeId : String)
    (h : internalType ≠ "Mdx") :
    onCreateNode internalType relativePath ext nodeId = [] := by
  simp [onCreateNode, h]

/-- C8 witness: a File node receives no fields. -/
theorem C8_non_mdx_no_fields_witness :
    onCreateNode "File" "a.md" ".md" "n-file" = [] :=
  C8_non_mdx_no_fields "File" "a.md" ".md" "n-file" (by decide)

/-- C9: the base page of every node resolves its SEO title as
`metaTitle || title` and its SEO description as `metaDescription || title`
without consulting the override tables; in particular a node without a meta
description gets its title as its description. -/
theorem C9_base_page_defaults (node : MdxNode) :
    (basePage node).seoTitle = jsOr node.frontmatter.metaTitle node.frontmatter.title ∧
    (basePage node).seoDescription = jsOr node.frontmatter.metaDescription node.frontmatter.title ∧
    (node.frontmatter.metaDescription = none →
      (basePage node).seoDescription = node.frontmatter.title) := by
  refine ⟨rfl, rfl, ?_⟩
  intro h
  simp [basePage, getDesc, truthy, jsOr, h]

/-- C9 witness: a node without a meta description but with populated
override tables still gets its title as its base page description. -/
theorem C9_base_page_defaults_witness :
    (basePage nodePlain).seoDescription = nodePlain.frontmatter.title :=
  (C9_base_page_defaults nodePlain).2.2 rfl

/-- C10: the digit-dash stripping used for every page path removes every
match of the regex digits-followed-by-hyphen anywhere in the slug (no such
match remains in the output), also in the middle of a path segment, and the
base page path of a node with a truthy slug is exactly the stripped slug. -/
theorem C10_global_digit_dash_strip (slug : String) :
    (∀ l : List Char, noDigitDash (stripDigitDashL l) = true) ∧
    stripDigitDash "/getting1-started/02-faq" = "/gettingstarted/faq" ∧
    (slug ≠ "" → ∀ nodeId fm,
      (basePage { slug := slug, id := nodeId, frontmatter := fm }).path
        = stripDigitDash slug) := by
  refine ⟨fun l => noDigitDash_stripAux l.length l le_rfl,
    by simp +decide [stripDigitDash, stripDigitDashL], ?_⟩
  intro h nodeId fm
  simp [basePage, h]

/-- C10 witness: a slug with a digit-dash sequence in the middle of a
segment has it stripped from the base page path. -/
theorem C10_global_digit_dash_strip_witness :
    (basePage { slug := "/mid1-dle/03-faq", id := "n-mid",
                frontmatter := fmBoth }).path = stripDigitDash "/mid1-dle/03-faq" :=
  (C10_global_digit_dash_strip "/mid1-dle/03-faq").2.2 (by decide) "n-mid" fmBoth

end GatsbyNode
